import Mathlib

/-!
Verification development for the bolt.gives chat-run orchestrator and runtime
helpers. The definitions below are shallow embeddings of the TypeScript source:

* the run orchestrator of the chat API route (progress counter, commentary
  emission, the idempotent completion-event batch, the onFinish decision tree
  with forced finalize, run continuation, forced run recovery and the
  length-continuation branch, and the stream-timeout configuration);
* the InteractiveStepRunner;
* the credential and URL normalization helpers.

External collaborator modules (model backend, commentary message pooling,
project-memory persistence, metrics sinks) are not part of the verified
surface: where their outputs feed decisions of the embedded code they appear
as inputs of the step relation, and where a constant or prompt text lives
outside the embedded files it is modelled from the specification and marked
as such.
-/

namespace BoltGives

/-- Commentary phase, from the AgentCommentaryPhase union type. -/
inductive Phase
  | plan
  | action
  | verification
  | nextStep
  | recovery
deriving Repr, DecidableEq

/-- Commentary / progress status values. -/
inductive CStatus
  | inProgress
  | warning
  | complete
  | recovered
deriving Repr, DecidableEq

/-- Conversation message role. -/
inductive Role
  | user
  | assistant
deriving Repr, DecidableEq

/-- A conversation message (id omitted: generateId is an external fresh-id source
and no embedded decision reads it). -/
structure Message where
  role : Role
  content : String
deriving Repr, DecidableEq

/-- Backend finish reason as consumed by onFinish. -/
inductive FinishReason
  | stop
  | length
  | toolCalls
  | other
deriving Repr, DecidableEq

/-- Chat mode from the request payload. -/
inductive ChatMode
  | discuss
  | build
deriving Repr, DecidableEq

/-- Events written onto the data stream that the claims observe.  Payload
fields that no claim mentions (timestamps, detail text after the commentary
contract, aggregate metrics) are omitted; the order number is kept exactly as
assigned from the shared progressCounter. -/
inductive RunEvent
  | commentary (order : Nat) (phase : Phase) (status : CStatus) (message : String)
  | progressEv (order : Nat) (label : String) (status : CStatus) (message : String)
  | usageData
  | usageNote
  | runMetrics (model : String) (provider : String)
  | projectMemory (summaryText : String)
deriving Repr, DecidableEq

/-- A recovery signal as produced by the AgentRecoveryController or the
timeout path (agent-recovery module is outside the embedded files, so signal
contents are inputs). -/
structure RecoverySignal where
  reason : String
  backoffMs : Nat
  forceFinalize : Bool
  message : String
deriving Repr, DecidableEq

/-- The mutable per-run state of the chatAction execute closure. -/
structure RunState where
  /-- progressCounter, shared by commentary and progress events; starts at 1. -/
  progressCounter : Nat
  /-- completionEmitted guard of emitRunCompletionEvents. -/
  completionEmitted : Bool
  /-- whether the commentary heartbeat interval is currently set. -/
  heartbeatRunning : Bool
  /-- lastCommentaryPhase, updated by every writeCommentary call. -/
  lastCommentaryPhase : Phase
  /-- whether firstCommentaryAt has been recorded. -/
  firstCommentaryRecorded : Bool
  /-- pendingRecoveryReason (None models undefined). -/
  pendingRecoveryReason : Option String
  /-- pendingRecoveryBackoffMs. -/
  pendingRecoveryBackoffMs : Nat
  /-- forceFinalizeRequested. -/
  forceFinalizeRequested : Bool
  /-- forceFinalizeAttempted. -/
  forceFinalizeAttempted : Bool
  /-- runContinuationAttempts. -/
  runContinuationAttempts : Nat
  /-- forcedRunRecoveryAttempted. -/
  forcedRunRecoveryAttempted : Bool
  /-- hasExecutionFailures (latestExecutionFailure is non-null exactly when
  this is set, so one flag models both). -/
  hasExecutionFailures : Bool
  /-- recoveryTriggered. -/
  recoveryTriggered : Bool
  /-- recoverySucceeded. -/
  recoverySucceeded : Bool
  /-- the switches counter of the SwitchableStream created at request start.
  No statement in the embedded route ever mutates it: the route merges each
  backend segment into the createDataStream channel instead of switching the
  SwitchableStream source, so only the guard in the length branch reads it. -/
  switches : Nat
  /-- collectedToolOutputs. -/
  collectedToolOutputs : List String
  /-- processedMessages, to which the orchestrator appends synthetic turns. -/
  messages : List Message
deriving Repr, DecidableEq

/-- Initial state of a run: progressCounter starts at 1, every flag clear,
no continuation attempts, a fresh SwitchableStream (switches = 0). -/
def initRunState : RunState :=
  { progressCounter := 1
    completionEmitted := false
    heartbeatRunning := false
    lastCommentaryPhase := Phase.plan
    firstCommentaryRecorded := false
    pendingRecoveryReason := none
    pendingRecoveryBackoffMs := 0
    forceFinalizeRequested := false
    forceFinalizeAttempted := false
    runContinuationAttempts := 0
    forcedRunRecoveryAttempted := false
    hasExecutionFailures := false
    recoveryTriggered := false
    recoverySucceeded := false
    switches := 0
    collectedToolOutputs := []
    messages := [] }

/-- Per-run configuration: the request chat mode and the
MAX_RESPONSE_SEGMENTS constant (imported by the route from the constants
module; kept as a parameter since only its positivity matters). -/
structure RunConfig where
  chatMode : Option ChatMode
  maxSegments : Nat
deriving Repr, DecidableEq

/-- MAX_RUN_CONTINUATION_ATTEMPTS = 5 from the route source. -/
def MAX_RUN_CONTINUATION_ATTEMPTS : Nat := 5

/-- writeCommentary: records firstCommentaryAt, updates lastCommentaryPhase,
assigns the next order number with a post-increment of progressCounter, and
writes one agent-commentary payload.  The pooled message substitution and the
commentary contract normalization live in external modules and only rewrite
message text, so the message is carried through unchanged. -/
def writeCommentary (phase : Phase) (message : String) (status : CStatus)
    (s : RunState) : RunState × List RunEvent :=
  ({ s with
      firstCommentaryRecorded := true
      lastCommentaryPhase := phase
      progressCounter := s.progressCounter + 1 },
   [RunEvent.commentary s.progressCounter phase status message])

/-- A progress data event written with the shared post-incremented
progressCounter. -/
def writeProgress (label : String) (status : CStatus) (message : String)
    (s : RunState) : RunState × List RunEvent :=
  ({ s with progressCounter := s.progressCounter + 1 },
   [RunEvent.progressEv s.progressCounter label status message])

/-- emitRunCompletionEvents: guarded by completionEmitted; on the first call
it stops the commentary heartbeat, sets the guard, and writes the completion
batch (usage data event, usage message annotation, run-metrics event,
project-memory event, and the final Response Generated progress event).  The
project-memory upsert and metrics sink are external side effects. -/
def emitRunCompletionEvents (finalAssistantText model provider : String)
    (s : RunState) : RunState × List RunEvent :=
  if s.completionEmitted then (s, [])
  else
    let s1 := { s with heartbeatRunning := false, completionEmitted := true }
    let p := writeProgress "response" CStatus.complete
      (if s1.hasExecutionFailures then "Response Generated (with execution failures)"
       else "Response Generated") s1
    (p.1,
     [RunEvent.usageData, RunEvent.usageNote,
      RunEvent.runMetrics model provider,
      RunEvent.projectMemory finalAssistantText] ++ p.2)

/-- Modelled from the spec: CONTINUE_PROMPT is the synthetic continuation
directive imported by the route from the common prompts module, which is not
among the embedded files.  Its exact wording is irrelevant to every claim;
only its identity as the fixed directive string matters. -/
def CONTINUE_PROMPT : String :=
  "Continue your prior response. IMPORTANT: Immediately begin from where you left off without any interruptions."

/-- buildForcedRunRecoveryPrompt from the route source. -/
def buildForcedRunRecoveryPrompt (provider model originalRequest : String) : String :=
  "[Model: " ++ model ++ "]\n\n[Provider: " ++ provider ++ "]\n\n" ++
  "Forced recovery mode: previous attempts did not produce a runnable implementation.\n" ++
  "Continue from the current project state and execute the original request now.\n\n" ++
  "Original request:\n" ++ originalRequest ++ "\n\n" ++
  "Hard requirements (must follow exactly):\n" ++
  "1) Emit exactly one <boltArtifact> with executable <boltAction> steps.\n" ++
  "2) Do NOT run inspection-only commands (ls, pwd, cat, find, tree, env, echo).\n" ++
  "3) Do NOT re-scaffold if package.json already exists.\n" ++
  "4) First meaningful actions must be <boltAction type=\"file\"> updates that implement the requested features.\n" ++
  "5) If dependencies are missing, run a single install command.\n" ++
  "6) Include a <boltAction type=\"start\"> command to run the dev server.\n" ++
  "7) If preview still shows fallback starter text, replace src/App.tsx (or equivalent root UI entry) immediately.\n" ++
  "8) Keep prose short; focus on executable steps and completion."

/-- The run-continuation directive pushed when a bootstrap-only response is
continued (the numbered template of the continuation branch; the final line
is added from the second attempt on). -/
def runContinuationPrompt (model provider lastUserContent : String)
    (attempts : Nat) : String :=
  "[Model: " ++ model ++ "]\n\n[Provider: " ++ provider ++ "]\n\n" ++
  "You scaffolded a project but did not complete the requested implementation.\n" ++
  "Continue now and do ALL of the following:\n" ++
  "1) continue from the current project files (do NOT re-run create-vite/create-react-app if package.json already exists).\n" ++
  "2) implement the requested product requirements from the original user request:\n" ++
  "   " ++ lastUserContent ++ "\n" ++
  "3) install dependencies only if missing.\n" ++
  "4) include a <boltAction type=\"start\"> command that launches the dev server.\n" ++
  "5) if a command fails, self-heal and retry with a corrected command.\n" ++
  "6) your response must start with executable <boltAction> steps (no plan-only prose).\n" ++
  "7) if preview still shows the starter, replace src/App.tsx (or equivalent entry UI file) with the requested implementation.\n" ++
  "8) keep the final response concise and execution-focused.\n" ++
  "9) do NOT run inspection-only commands (ls, pwd, cat, find, tree, env) as standalone steps.\n" ++
  "10) your first meaningful action must implement feature code files for the original request.\n" ++
  (if 2 ≤ attempts then
    "11) this is the final continuation attempt: skip diagnostics and apply implementation changes immediately.\n"
   else "\n")

/-- The final-answer directive pushed by the forced-finalize branch.  The
tool summary joins the last six collected tool outputs. -/
def finalizePrompt (model provider : String) (pendingReason : Option String)
    (outputs : List String) : String :=
  let toolSummary :=
    if outputs.length = 0 then "(no tool results captured)"
    else String.intercalate "\n" (outputs.drop (outputs.length - 6))
  "[Model: " ++ model ++ "]\n\n[Provider: " ++ provider ++ "]\n\n" ++
  "You already gathered tool outputs. Now provide the final answer without any more tool calls.\n" ++
  "If the user asked for a markdown file, create it using <boltAction type=\"file\">.\n" ++
  (match pendingReason with
   | some r => "Recovery reason: " ++ r ++ ". Summarize progress and continue.\n"
   | none => "\n") ++
  "\nTool outputs:\n" ++ toolSummary

/-- Inputs of one onFinish invocation.  content and finishReason come from
the backend; shouldContinue is the decision of analyzeRunContinuation (an
external pure classifier, so its verdict is an input here); model, provider
and lastUserContent are extracted from the latest user message by the
external extractPropertiesFromMessage. -/
structure FinishInput where
  content : String
  finishReason : FinishReason
  shouldContinue : Bool
  lastUserContent : String
  model : String
  provider : String
deriving Repr, DecidableEq

/-- Which kind of follow-up the orchestrator takes after an event batch. -/
inductive RunAction
  | noSegment
  | finalizeSegment
  | continuationSegment
  | forcedRecoverySegment
  | lengthSegment
  | completed
deriving Repr, DecidableEq

/-- onFinish of the main streaming options: forced finalize, run
continuation, forced run recovery, terminal completion, and the
length-continuation branch guarded by the SwitchableStream switch counter,
in source order.  The thrown segment-limit error is the Except error. -/
def onFinishStep (cfg : RunConfig) (fin : FinishInput) (s : RunState) :
    Except String (RunState × List RunEvent × RunAction) :=
  if (fin.finishReason = FinishReason.toolCalls ∨ s.forceFinalizeRequested = true)
      ∧ s.forceFinalizeAttempted = false then
    let s0 := { s with forceFinalizeAttempted := true }
    let a :=
      if 0 < s0.pendingRecoveryBackoffMs then
        writeCommentary Phase.recovery
          "I am taking a short recovery pause before the next step." CStatus.warning s0
      else (s0, [])
    let b :=
      writeCommentary Phase.nextStep
        (if a.1.pendingRecoveryReason.isSome then
          "Recovery is complete. I am preparing your final answer now."
         else "Execution is complete. I am preparing your final answer now.")
        (if a.1.pendingRecoveryReason.isSome then CStatus.recovered else CStatus.inProgress)
        a.1
    let s3 :=
      { b.1 with messages := b.1.messages ++
          [{ role := Role.assistant, content := fin.content },
           { role := Role.user,
             content := finalizePrompt fin.model fin.provider
               b.1.pendingRecoveryReason b.1.collectedToolOutputs }] }
    Except.ok (s3, a.2 ++ b.2, RunAction.finalizeSegment)
  else if fin.shouldContinue = true
      ∧ s.runContinuationAttempts < MAX_RUN_CONTINUATION_ATTEMPTS then
    let s0 := { s with runContinuationAttempts := s.runContinuationAttempts + 1 }
    let a :=
      writeCommentary Phase.recovery
        "I detected that setup finished but the app did not start yet. I will continue automatically."
        CStatus.warning s0
    let s2 :=
      { a.1 with messages := a.1.messages ++
          [{ role := Role.assistant, content := fin.content },
           { role := Role.user,
             content := runContinuationPrompt fin.model fin.provider
               fin.lastUserContent s0.runContinuationAttempts }] }
    Except.ok (s2, a.2, RunAction.continuationSegment)
  else if fin.shouldContinue = true
      ∧ MAX_RUN_CONTINUATION_ATTEMPTS ≤ s.runContinuationAttempts
      ∧ s.forcedRunRecoveryAttempted = false
      ∧ cfg.chatMode.getD ChatMode.build = ChatMode.build then
    let s0 := { s with forcedRunRecoveryAttempted := true }
    let a :=
      writeCommentary Phase.recovery
        "Automatic recovery is escalating because previous attempts did not produce implementation steps."
        CStatus.warning s0
    let s2 :=
      { a.1 with messages := a.1.messages ++
          [{ role := Role.assistant, content := fin.content },
           { role := Role.user,
             content := buildForcedRunRecoveryPrompt fin.provider fin.model
               fin.lastUserContent }] }
    Except.ok (s2, a.2, RunAction.forcedRecoverySegment)
  else if fin.finishReason ≠ FinishReason.length then
    let a :=
      if s.pendingRecoveryReason.isSome then
        let sa := { s with recoverySucceeded := true }
        let w := writeCommentary Phase.recovery "Recovery finished successfully."
          CStatus.recovered sa
        ({ w.1 with
            pendingRecoveryReason := none
            pendingRecoveryBackoffMs := 0
            forceFinalizeRequested := false }, w.2)
      else (s, [])
    let b :=
      if a.1.hasExecutionFailures then
        writeCommentary Phase.nextStep "Work finished, but one step still needs attention."
          CStatus.warning a.1
      else
        writeCommentary Phase.nextStep "Final response generated and ready for delivery."
          CStatus.complete a.1
    let s3 := { b.1 with heartbeatRunning := false }
    let c := emitRunCompletionEvents fin.content fin.model fin.provider s3
    Except.ok (c.1, a.2 ++ b.2 ++ c.2, RunAction.completed)
  else if cfg.maxSegments ≤ s.switches then
    Except.error "Cannot continue message: Maximum segments reached"
  else
    let s2 :=
      { s with messages := s.messages ++
          [{ role := Role.assistant, content := fin.content },
           { role := Role.user,
             content := "[Model: " ++ fin.model ++ "]\n\n[Provider: " ++ fin.provider
               ++ "]\n\n" ++ CONTINUE_PROMPT }] }
    Except.ok (s2, [], RunAction.lengthSegment)

/-- onFinish of the bounded finalize segment (finalizeOptions): recovery
bookkeeping, the closing next-step commentary, stopping the run monitors,
and the guarded completion-event batch. -/
def finalizeFinishStep (finalContent model provider : String) (s : RunState) :
    RunState × List RunEvent :=
  let a :=
    if s.pendingRecoveryReason.isSome then
      let sa := { s with recoverySucceeded := true }
      let w := writeCommentary Phase.recovery "Recovery finished successfully."
        CStatus.recovered sa
      ({ w.1 with
          pendingRecoveryReason := none
          pendingRecoveryBackoffMs := 0
          forceFinalizeRequested := false }, w.2)
    else (s, [])
  let b :=
    if a.1.hasExecutionFailures then
      writeCommentary Phase.nextStep "Work finished, but one step still needs attention."
        CStatus.warning a.1
    else
      writeCommentary Phase.nextStep "Final response generated and ready for delivery."
        CStatus.complete a.1
  let s3 := { b.1 with heartbeatRunning := false }
  let c := emitRunCompletionEvents finalContent model provider s3
  (c.1, a.2 ++ b.2 ++ c.2)

/-- Inputs of one onStepFinish invocation: whether the step had tool calls or
results, whether the external failure extractor reported a failure, the
signal returned by the external recovery controller, and the serialized tool
outputs collected for the finalize summary. -/
structure StepFinishInput where
  hasToolActivity : Bool
  executionFailure : Bool
  recoverySignal : Option RecoverySignal
  toolOutputs : List String
deriving Repr, DecidableEq

/-- One asynchronous entry point into the run state, corresponding to the
callbacks of the execute closure. -/
inductive RunOp
  | commentaryOp (phase : Phase) (message : String) (status : CStatus)
  | progressOp (label : String) (status : CStatus) (message : String)
  | startHeartbeatOp
  | stopHeartbeatOp
  | heartbeatTickOp
  | timeoutOp (signal : RecoverySignal)
  | stepFinishOp (sf : StepFinishInput)
  | finishOp (fin : FinishInput)
  | finalizeFinishOp (finalContent model provider : String)
deriving Repr, DecidableEq

/-- Applies a recovery signal to the pending-recovery fields: the pending
reason keeps its first value, the backoff takes the maximum, forceFinalize
and recoveryTriggered are sticky. -/
def mergeRecoverySignal (sig : RecoverySignal) (s : RunState) : RunState :=
  { s with
      pendingRecoveryReason := some (s.pendingRecoveryReason.getD sig.reason)
      pendingRecoveryBackoffMs := max s.pendingRecoveryBackoffMs sig.backoffMs
      forceFinalizeRequested := s.forceFinalizeRequested || sig.forceFinalize
      recoveryTriggered := true }

/-- The step relation of the run: each op is the body of the corresponding
callback in the route source. -/
def applyOp (cfg : RunConfig) (s : RunState) :
    RunOp → Except String (RunState × List RunEvent × RunAction)
  | RunOp.commentaryOp phase message status =>
    let a := writeCommentary phase message status s
    Except.ok (a.1, a.2, RunAction.noSegment)
  | RunOp.progressOp label status message =>
    let a := writeProgress label status message s
    Except.ok (a.1, a.2, RunAction.noSegment)
  | RunOp.startHeartbeatOp =>
    Except.ok ({ s with heartbeatRunning := true }, [], RunAction.noSegment)
  | RunOp.stopHeartbeatOp =>
    Except.ok ({ s with heartbeatRunning := false }, [], RunAction.noSegment)
  | RunOp.heartbeatTickOp =>
    if s.heartbeatRunning then
      let a := writeCommentary s.lastCommentaryPhase
        "I am still working and will post another update shortly." CStatus.inProgress s
      Except.ok (a.1, a.2, RunAction.noSegment)
    else Except.ok (s, [], RunAction.noSegment)
  | RunOp.timeoutOp sig =>
    let s0 := mergeRecoverySignal sig s
    let a := writeCommentary Phase.recovery sig.message CStatus.warning s0
    Except.ok (a.1, a.2, RunAction.noSegment)
  | RunOp.stepFinishOp sf =>
    let a :=
      if sf.hasToolActivity then
        writeCommentary Phase.verification
          "I finished a step and I am checking the result before continuing."
          CStatus.inProgress s
      else (s, [])
    let b :=
      if sf.executionFailure then
        let sb := { a.1 with hasExecutionFailures := true, recoveryTriggered := true }
        writeCommentary Phase.recovery
          "A step failed. I am checking it now and applying a fix automatically."
          CStatus.warning sb
      else (a.1, [])
    let c :=
      match sf.recoverySignal with
      | some sig =>
        let sc := mergeRecoverySignal sig b.1
        writeCommentary Phase.recovery sig.message CStatus.warning sc
      | none => (b.1, [])
    let s4 := { c.1 with collectedToolOutputs := c.1.collectedToolOutputs ++ sf.toolOutputs }
    Except.ok (s4, a.2 ++ b.2 ++ c.2, RunAction.noSegment)
  | RunOp.finishOp fin => onFinishStep cfg fin s
  | RunOp.finalizeFinishOp finalContent model provider =>
    let a := finalizeFinishStep finalContent model provider s
    Except.ok (a.1, a.2, RunAction.completed)

/-- Result of running a sequence of ops: final state, all emitted events,
all actions, and the error message when an op threw. -/
structure TraceResult where
  state : RunState
  events : List RunEvent
  actions : List RunAction
  aborted : Option String
deriving Repr, DecidableEq

/-- Runs a list of ops; a thrown error aborts the remainder of the trace. -/
def runTrace (cfg : RunConfig) (s : RunState) : List RunOp → TraceResult
  | [] => { state := s, events := [], actions := [], aborted := none }
  | op :: rest =>
    match applyOp cfg s op with
    | Except.error msg => { state := s, events := [], actions := [], aborted := some msg }
    | Except.ok (s1, evs, act) =>
      let r := runTrace cfg s1 rest
      { state := r.state, events := evs ++ r.events, actions := act :: r.actions,
        aborted := r.aborted }

/-- Number of completion batches in an event list (each batch contains
exactly one usage data event and nothing else emits one). -/
def batchCount : List RunEvent → Nat
  | [] => 0
  | RunEvent.usageData :: rest => batchCount rest + 1
  | _ :: rest => batchCount rest

/-- Orders carried by order-bearing events, in emission sequence. -/
def ordersOf : List RunEvent → List Nat
  | [] => []
  | RunEvent.commentary o _ _ _ :: rest => o :: ordersOf rest
  | RunEvent.progressEv o _ _ _ :: rest => o :: ordersOf rest
  | _ :: rest => ordersOf rest

/-- Orders carried by agent-commentary events only, in emission sequence. -/
def commentaryOrders : List RunEvent → List Nat
  | [] => []
  | RunEvent.commentary o _ _ _ :: rest => o :: commentaryOrders rest
  | _ :: rest => commentaryOrders rest

/-- Projection of an onFinishStep result onto the taken action. -/
def actionOf (r : Except String (RunState × List RunEvent × RunAction)) :
    Option RunAction :=
  match r with
  | Except.ok (_, _, a) => some a
  | Except.error _ => none

/-- Projection of an onFinishStep result onto the resulting state. -/
def stateOf (r : Except String (RunState × List RunEvent × RunAction)) :
    Option RunState :=
  match r with
  | Except.ok (s, _, _) => some s
  | Except.error _ => none

/-- Number of forced-run-recovery segments in an action list. -/
def forcedCount : List RunAction → Nat
  | [] => 0
  | RunAction.forcedRecoverySegment :: rest => forcedCount rest + 1
  | _ :: rest => forcedCount rest

/-- One unit of completion-batch budget left while the guard is clear. -/
def completionPotential (s : RunState) : Nat :=
  if s.completionEmitted then 0 else 1

/-- One unit of forced-recovery budget left while the guard flag is clear. -/
def forcedPotential (s : RunState) : Nat :=
  if s.forcedRunRecoveryAttempted then 0 else 1

/-- Batch budget soundness of an applyOp result. -/
def BatchOk (s : RunState) :
    Except String (RunState × List RunEvent × RunAction) → Prop
  | Except.ok (s1, evs, _) =>
    batchCount evs + completionPotential s1 ≤ completionPotential s
  | Except.error _ => True

/-- Order-span soundness of an applyOp result: the order-bearing events of
one op step carry exactly the counter values consumed by the step. -/
def OrdersOk (s : RunState) :
    Except String (RunState × List RunEvent × RunAction) → Prop
  | Except.ok (s1, evs, _) =>
    s.progressCounter ≤ s1.progressCounter ∧
    ordersOf evs = List.range' s.progressCounter (s1.progressCounter - s.progressCounter)
  | Except.error _ => True

/-- Continuation-ceiling preservation of an applyOp result. -/
def AttemptsOk (s : RunState) :
    Except String (RunState × List RunEvent × RunAction) → Prop
  | Except.ok (s1, _, _) =>
    s.runContinuationAttempts ≤ MAX_RUN_CONTINUATION_ATTEMPTS →
      s1.runContinuationAttempts ≤ MAX_RUN_CONTINUATION_ATTEMPTS
  | Except.error _ => True

/-- Forced-recovery budget soundness of an applyOp result. -/
def ForcedOk (s : RunState) :
    Except String (RunState × List RunEvent × RunAction) → Prop
  | Except.ok (s1, _, act) =>
    (if act = RunAction.forcedRecoverySegment then 1 else 0) + forcedPotential s1
      ≤ forcedPotential s
  | Except.error _ => True

/-- State of a run that has exhausted its five continuation attempts. -/
def c2WitnessState : RunState := { initRunState with runContinuationAttempts := 5 }

/-- A finish input where the analyzer still requests continuation. -/
def c2WitnessFinish : FinishInput :=
  { content := "scaffold only"
    finishReason := FinishReason.stop
    shouldContinue := true
    lastUserContent := "build a todo app"
    model := "gpt-4"
    provider := "OpenAI" }

/-- Configuration with the segment cap at 2 (the upstream fixed maximum). -/
def c4Cfg : RunConfig := { chatMode := some ChatMode.build, maxSegments := 2 }

/-- A backend segment that finished by hitting its generation-length limit. -/
def c4LengthFinish : FinishInput :=
  { content := "truncated output"
    finishReason := FinishReason.length
    shouldContinue := false
    lastUserContent := "build the app"
    model := "gpt-4"
    provider := "OpenAI" }

/-- Inputs exercising the length-continuation branch. -/
def c8Cfg : RunConfig := { chatMode := some ChatMode.build, maxSegments := 2 }

/-- A length-truncated finish with no continuation request. -/
def c8Fin : FinishInput :=
  { content := "first segment text"
    finishReason := FinishReason.length
    shouldContinue := false
    lastUserContent := "write a long document"
    model := "gpt-4"
    provider := "OpenAI" }

/-- Modelled from the spec: the commentary heartbeat is a fixed-interval
repeating timer (setInterval with COMMENTARY_HEARTBEAT_INTERVAL_MS, a
constant of the external commentary-heartbeat module).  In the idealized
discrete-time reading used here, a timer set at time startedAt fires at
startedAt + k * interval for every k ≥ 1 while it stays set. -/
def heartbeatFiresAt (startedAt interval t : Nat) : Bool :=
  decide (0 < interval) && decide (startedAt + interval ≤ t) &&
    decide ((t - startedAt) % interval = 0)

/-- The first heartbeat tick at or after the moment a. -/
def heartbeatNextTick (startedAt interval a : Nat) : Nat :=
  startedAt + ((a - startedAt) / interval + 1) * interval

/-- A run state with the heartbeat set. -/
def c6TickState : RunState := { initRunState with heartbeatRunning := true }

/-- A word character in the sense of the regex \w class. -/
def isWordChar (c : Char) : Bool :=
  c.isAlpha || c.isDigit || c = '_'

/-- The alternatives of LONG_THINK_MODEL_RE, already lowercase (the regex
carries the i flag and is matched below against the lowercased input). -/
def LONG_THINK_ALTS : List String :=
  ["gpt-5", "gpt-5.2", "gpt-5-codex", "codex", "o1", "o3", "claude-3.7",
   "claude-3.5-sonnet-latest", "claude-3-5-sonnet-latest"]

/-- Whether one alternative matches at position i of the lowercased character
list, with the word boundaries required on both sides by the regex. -/
def matchAltAt (l : List Char) (i : Nat) (alt : List Char) : Bool :=
  alt.isPrefixOf (l.drop i) &&
  (match i with
   | 0 => true
   | j + 1 =>
     match l[j]? with
     | some c => !isWordChar c
     | none => true) &&
  (match l[i + alt.length]? with
   | some c => !isWordChar c
   | none => true)

/-- LONG_THINK_MODEL_RE.test: case-insensitive search for any alternative
between word boundaries. -/
def longThinkTest (s : String) : Bool :=
  let l := s.data.map Char.toLower
  (List.range (l.length + 1)).any fun i =>
    LONG_THINK_ALTS.any fun alt => matchAltAt l i alt.data

/-- dynamicStreamTimeoutFallbackMs: 300000 ms when the selected model matches
the long-reasoning pattern, 180000 ms otherwise (selectedModel defaults to
the empty string). -/
def dynamicStreamTimeoutFallbackMs (selectedModel : Option String) : Int :=
  if longThinkTest (selectedModel.getD "") then 300000 else 180000

/-- The value of Number(BOLT_STREAM_TIMEOUT_MS or fallback): unset covers an
absent or empty variable (the JS or-chain then feeds the numeric fallback to
Number), notFinite covers a set variable whose Number image is NaN or an
infinity, and value v a finite configured number. -/
inductive EnvNumber
  | unset
  | notFinite
  | value (v : Int)
deriving Repr, DecidableEq

/-- streamTimeoutMs: the configured value is used when it is finite and at
least 30000; otherwise the model-derived fallback applies. -/
def streamTimeoutMs (cfgEnv : EnvNumber) (selectedModel : Option String) : Int :=
  let fallback := dynamicStreamTimeoutFallbackMs selectedModel
  let configured : Option Int :=
    match cfgEnv with
    | EnvNumber.unset => some fallback
    | EnvNumber.notFinite => none
    | EnvNumber.value v => some v
  match configured with
  | some v => if 30000 ≤ v then v else fallback
  | none => fallback

/-- Substring test in the sense of String.prototype.includes (exact case). -/
def strIncludes (hay sub : String) : Bool :=
  (List.range (hay.data.length + 1)).any fun i => sub.data.isPrefixOf (hay.data.drop i)

/-- The error object reaching the chatAction catch block.  message collapses
a missing message to the empty string (both behave identically in the two
uses); statusCode and isRetryable are absent when the error does not set
them. -/
structure JsError where
  message : String
  statusCode : Option Int
  isRetryable : Option Bool
deriving Repr, DecidableEq

/-- The structured error response returned by chatAction before streaming:
HTTP status, body fields, and status text. -/
structure ErrorHttpResponse where
  status : Int
  message : String
  statusCode : Int
  isRetryable : Bool
  statusText : String
deriving Repr, DecidableEq

/-- The catch block of chatAction: a message containing API key maps to the
credential response with HTTP 401 and isRetryable false; any other error is
passed through with its own statusCode (500 when absent or zero, the JS
falsy check) and isRetryable true unless the error sets it to false. -/
def chatActionCatch (e : JsError) : ErrorHttpResponse :=
  let baseStatusCode : Int :=
    match e.statusCode with
    | some v => if v = 0 then 500 else v
    | none => 500
  let baseMessage :=
    if e.message = "" then "An unexpected error occurred" else e.message
  let baseRetry :=
    match e.isRetryable with
    | some false => false
    | _ => true
  if strIncludes e.message "API key" then
    { status := 401
      message := "Invalid or missing API key"
      statusCode := 401
      isRetryable := false
      statusText := "Unauthorized" }
  else
    { status := baseStatusCode
      message := baseMessage
      statusCode := baseStatusCode
      isRetryable := baseRetry
      statusText := "Error" }

/-- A credential failure as raised by provider key resolution. -/
def c7CredError : JsError :=
  { message := "Missing API key for OpenAI", statusCode := none, isRetryable := none }

/-- A generic backend failure carrying its own status. -/
def c7OtherError : JsError :=
  { message := "upstream exploded", statusCode := some 502, isRetryable := none }

/-- One step of the interactive runner. -/
structure InteractiveStep where
  description : String
  command : List String
deriving Repr, DecidableEq

/-- Result reported by a step executor. -/
structure StepExecutionResult where
  exitCode : Int
  stdout : Option String
  stderr : Option String
deriving Repr, DecidableEq

/-- Outcome of invoking the executor on a step: a result, or a thrown
exception carrying its message. -/
inductive ExecOutcome
  | success (r : StepExecutionResult)
  | thrown (message : String)
deriving Repr, DecidableEq

/-- Events emitted by InteractiveStepRunner.run.  The buffered stdout/stderr
stream events are not modelled (they are always flushed before the step-end,
error, or complete event of the same iteration, so they do not affect the
terminal-event and ordering properties; the embedding covers executors that
report only final results). -/
inductive StepEvent
  | stepStart (stepIndex : Nat) (description : String) (command : List String)
  | stepEnd (stepIndex : Nat) (description : String) (exitCode : Int)
      (output : Option String)
  | errorEvent (stepIndex : Nat) (description : String) (exitCode : Option Int)
      (errorMessage : String)
  | completeEvent (totalSteps : Nat)
deriving Repr, DecidableEq

/-- Status of an InteractiveStepRunResult. -/
inductive StepRunStatus
  | complete
  | error
deriving Repr, DecidableEq

/-- The result value of InteractiveStepRunner.run. -/
structure InteractiveStepRunResult where
  status : StepRunStatus
  failedStepIndex : Option Nat
  exitCode : Option Int
  error : Option String
deriving Repr, DecidableEq

/-- JS or-chain over possibly absent, possibly empty strings. -/
def orElseStr (a : Option String) (fallback : String) : String :=
  match a with
  | some v => if v = "" then fallback else v
  | none => fallback

/-- The loop body of InteractiveStepRunner.run, indexed by the position of
the current step: emits step-start, invokes the executor, emits step-end on a
reported result, and stops with an error event and error result on a
non-zero exit code or a thrown exception; after the last step it emits the
complete event. -/
def runAux (exec : InteractiveStep → ExecOutcome) :
    Nat → List InteractiveStep → List StepEvent × InteractiveStepRunResult
  | i, [] =>
    ([StepEvent.completeEvent i],
     { status := StepRunStatus.complete, failedStepIndex := none,
       exitCode := none, error := none })
  | i, step :: rest =>
    let startEv := StepEvent.stepStart i step.description step.command
    match exec step with
    | ExecOutcome.thrown msg =>
      ([startEv, StepEvent.errorEvent i step.description none msg],
       { status := StepRunStatus.error, failedStepIndex := some i,
         exitCode := none, error := some msg })
    | ExecOutcome.success r =>
      if r.exitCode = 0 then
        let t := runAux exec (i + 1) rest
        (startEv :: StepEvent.stepEnd i step.description r.exitCode r.stdout :: t.1,
         t.2)
      else
        let errorMessage := orElseStr r.stderr (orElseStr r.stdout
          ("Step failed with exit code " ++ toString r.exitCode))
        ([startEv, StepEvent.stepEnd i step.description r.exitCode r.stdout,
          StepEvent.errorEvent i step.description (some r.exitCode) errorMessage],
         { status := StepRunStatus.error, failedStepIndex := some i,
           exitCode := some r.exitCode, error := some errorMessage })

/-- InteractiveStepRunner.run on a step list. -/
def runSteps (exec : InteractiveStep → ExecOutcome) (steps : List InteractiveStep) :
    List StepEvent × InteractiveStepRunResult :=
  runAux exec 0 steps

/-- Whether the executor reports a zero exit code for a step. -/
def stepSucceeds (exec : InteractiveStep → ExecOutcome) (step : InteractiveStep) :
    Bool :=
  match exec step with
  | ExecOutcome.success r => r.exitCode == 0
  | ExecOutcome.thrown _ => false

/-- Indices of the emitted step-start events, in emission order: exactly the
steps whose execution began. -/
def startIndices : List StepEvent → List Nat
  | [] => []
  | StepEvent.stepStart i _ _ :: rest => i :: startIndices rest
  | _ :: rest => startIndices rest

/-- Whether an event is an error event. -/
def isErrorEvent : StepEvent → Bool
  | StepEvent.errorEvent _ _ _ _ => true
  | _ => false

/-- An executor failing exactly on the step described bad. -/
def c9Exec (st : InteractiveStep) : ExecOutcome :=
  if st.description = "bad" then
    ExecOutcome.success { exitCode := 1, stdout := none, stderr := some "boom" }
  else
    ExecOutcome.success { exitCode := 0, stdout := some "done", stderr := none }

/-- A passing step. -/
def c9Good : InteractiveStep := { description := "good", command := ["echo", "hello"] }

/-- The failing step. -/
def c9Bad : InteractiveStep := { description := "bad", command := ["run", "tests"] }

/-- A step after the failure that must never start. -/
def c9Tail : InteractiveStep := { description := "tail", command := ["echo", "later"] }

/-- Whitespace characters recognized by String.prototype.trim and by the \s
regex class, per ECMA-262: tab through carriage return, space, no-break
space, the ogham space mark, the en-quad through hair-space block, the
narrow no-break space, the medium mathematical space, the ideographic
space, the line and paragraph separators, and the BOM. -/
def isJsSpace (c : Char) : Bool :=
  c.toNat = 32 || (9 ≤ c.toNat && c.toNat ≤ 13) || c.toNat = 160 ||
  c.toNat = 5760 || (8192 ≤ c.toNat && c.toNat ≤ 8202) ||
  c.toNat = 8232 || c.toNat = 8233 || c.toNat = 8239 || c.toNat = 8287 ||
  c.toNat = 12288 || c.toNat = 65279

/-- String.prototype.trim on a character list. -/
def jsTrim (l : List Char) : List Char :=
  ((l.dropWhile isJsSpace).reverse.dropWhile isJsSpace).reverse

/-- PLACEHOLDER_SNIPPETS from the credentials module. -/
def PLACEHOLDER_SNIPPETS : List String :=
  ["your_", "_here", "placeholder", "replace_me", "changeme"]

/-- A separator in the rotate-required pattern: the regex class of
whitespace, underscore, or hyphen. -/
def sepChar (c : Char) : Bool :=
  isJsSpace c || c = '_' || c = '-'

/-- Substring containment on character lists, as String.prototype.includes. -/
def containsSub (hay needle : List Char) : Bool :=
  (List.range (hay.length + 1)).any fun i => needle.isPrefixOf (hay.drop i)

/-- Whether the rotate-required pattern matches starting at the head of l:
the literal rotate, any run of separator characters, then required.  The
separator run can be consumed greedily because the first character of
required is not a separator. -/
def rotateRequiredAt (l : List Char) : Bool :=
  "rotate".data.isPrefixOf l &&
  "required".data.isPrefixOf ((l.drop 6).dropWhile sepChar)

/-- ROTATE_REQUIRED_REGEX.test on the (already lowercased) credential: scan
every start position. -/
def rotateRequiredTest : List Char → Bool
  | [] => rotateRequiredAt []
  | c :: t => rotateRequiredAt (c :: t) || rotateRequiredTest t

/-- The bracket-placeholder regex of isBracketPlaceholder applied to the
trimmed value: an opening angle bracket, one or more characters none of
which is a closing bracket, then a closing bracket at the end. -/
def isBracketPlaceholder (value : List Char) : Bool :=
  match jsTrim value with
  | [] => false
  | c :: rest =>
    c == '<' && !(rest.dropLast.isEmpty) && (rest.getLast? == some '>') &&
      rest.dropLast.all (fun x => x != '>')

/-- isPlaceholderCredential: the early returns of the source become the or
chain (empty normalized value, rotate-required match, bracket placeholder on
the raw value, or any placeholder snippet contained in the normalized
value). -/
def isPlaceholderCredential (rawValue : List Char) : Bool :=
  let normalized := (jsTrim rawValue).map Char.toLower
  normalized.isEmpty || rotateRequiredTest normalized ||
    isBracketPlaceholder rawValue ||
    PLACEHOLDER_SNIPPETS.any fun snip => containsSub normalized snip.data

/-- A JavaScript value as received by the normalizers: a string or any
non-string value. -/
inductive JsValue
  | jstr (s : String)
  | jnonstring
deriving Repr, DecidableEq

/-- normalizeCredential from the credentials module. -/
def normalizeCredential (rawValue : JsValue) : Option String :=
  match rawValue with
  | JsValue.jnonstring => none
  | JsValue.jstr s =>
    let trimmed := jsTrim s.data
    if trimmed.length = 0 then none
    else if isPlaceholderCredential trimmed then none
    else some (String.mk trimmed)

/-- The case-insensitive ^https?:\/\/ test. -/
def httpTest (l : List Char) : Bool :=
  "http://".data.isPrefixOf (l.map Char.toLower) ||
  "https://".data.isPrefixOf (l.map Char.toLower)

/-- normalizeHttpUrl from the credentials module. -/
def normalizeHttpUrl (rawValue : JsValue) : Option String :=
  match rawValue with
  | JsValue.jnonstring => none
  | JsValue.jstr s =>
    let trimmed := jsTrim s.data
    if trimmed.length = 0 then none
    else if isPlaceholderCredential trimmed then none
    else if !(httpTest trimmed) then none
    else some (String.mk trimmed)

/-- Spec-side reading of the placeholder conditions, following the claim
wording: the normalized (trimmed, lowercased) value is empty, matches the
rotate-required pattern, the trimmed value is bracket-wrapped, or the
normalized value contains one of the placeholder snippets. -/
def PlaceholderSpec (raw : List Char) : Prop :=
  (jsTrim raw).map Char.toLower = [] ∨
  (∃ pre seps post, (jsTrim raw).map Char.toLower =
      pre ++ "rotate".data ++ seps ++ "required".data ++ post ∧
      ∀ c ∈ seps, sepChar c = true) ∨
  (∃ mid, jsTrim raw = '<' :: (mid ++ ['>']) ∧ mid ≠ [] ∧ '>' ∉ mid) ∨
  (∃ snip ∈ PLACEHOLDER_SNIPPETS, snip.data <:+: (jsTrim raw).map Char.toLower)

/-- Spec-side reading of the scheme test: the lowercased value starts with
http or https followed by the scheme separator. -/
def HttpSpec (l : List Char) : Prop :=
  "http://".data <+: l.map Char.toLower ∨ "https://".data <+: l.map Char.toLower

theorem batchCount_append (l1 l2 : List RunEvent) :
    batchCount (l1 ++ l2) = batchCount l1 + batchCount l2 := by
  induction l1 with
  | nil => simp [batchCount]
  | cons e rest ih => cases e <;> simp [batchCount, ih] <;> omega

theorem forcedCount_append (l1 l2 : List RunAction) :
    forcedCount (l1 ++ l2) = forcedCount l1 + forcedCount l2 := by
  induction l1 with
  | nil => simp [forcedCount]
  | cons a rest ih => cases a <;> simp [forcedCount, ih] <;> omega

theorem ordersOf_append (l1 l2 : List RunEvent) :
    ordersOf (l1 ++ l2) = ordersOf l1 ++ ordersOf l2 := by
  induction l1 with
  | nil => simp [ordersOf]
  | cons e rest ih => cases e <;> simp [ordersOf, ih]

theorem commentaryOrders_sublist : ∀ evs : List RunEvent,
    List.Sublist (commentaryOrders evs) (ordersOf evs)
  | [] => List.Sublist.refl []
  | RunEvent.commentary o p st m :: rest =>
    List.Sublist.cons₂ o (commentaryOrders_sublist rest)
  | RunEvent.progressEv o l st m :: rest =>
    List.Sublist.cons o (commentaryOrders_sublist rest)
  | RunEvent.usageData :: rest => commentaryOrders_sublist rest
  | RunEvent.usageNote :: rest => commentaryOrders_sublist rest
  | RunEvent.runMetrics _ _ :: rest => commentaryOrders_sublist rest
  | RunEvent.projectMemory _ :: rest => commentaryOrders_sublist rest

theorem range'_two (c : Nat) : List.range' c (c + 1 + 1 - c) = [c, c + 1] := by
  have h : c + 1 + 1 - c = 2 := by omega
  rw [h]
  simp [List.range']

theorem range'_three (c : Nat) : List.range' c (c + 1 + 1 + 1 - c) = [c, c + 1, c + 1 + 1] := by
  have h : c + 1 + 1 + 1 - c = 3 := by omega
  rw [h]
  simp [List.range']

theorem range'_one_off (c : Nat) : List.range' c (c + 1 - c) = [c] := by
  have h : c + 1 - c = 1 := by omega
  rw [h]
  simp

theorem range'_zero_off (c : Nat) : List.range' c (c - c) = [] := by
  simp [Nat.sub_self]

set_option maxHeartbeats 1000000 in
theorem onFinishStep_batch (cfg : RunConfig) (fin : FinishInput) (s : RunState) :
    BatchOk s (onFinishStep cfg fin s) := by
  simp only [onFinishStep, emitRunCompletionEvents, writeCommentary, writeProgress]
  split_ifs <;>
    simp_all [BatchOk, batchCount_append, batchCount, completionPotential]

set_option maxHeartbeats 1000000 in
theorem applyOp_batch (cfg : RunConfig) (s : RunState) (op : RunOp) :
    BatchOk s (applyOp cfg s op) := by
  cases op with
  | finishOp fin => exact onFinishStep_batch cfg fin s
  | stepFinishOp sf =>
    obtain ⟨hta, hef, hsig, louts⟩ := sf
    cases hsig <;>
      simp only [applyOp] <;>
      split_ifs <;>
        simp_all [BatchOk, writeCommentary, mergeRecoverySignal,
          batchCount_append, batchCount, completionPotential]
  | finalizeFinishOp c m p =>
    simp only [applyOp, finalizeFinishStep, emitRunCompletionEvents,
      writeCommentary, writeProgress]
    split_ifs <;>
      simp_all [BatchOk, batchCount_append, batchCount, completionPotential]
  | heartbeatTickOp =>
    simp only [applyOp]
    split_ifs <;>
      simp_all [BatchOk, writeCommentary, batchCount, completionPotential]
  | _ =>
    simp [applyOp, BatchOk, writeCommentary, writeProgress, mergeRecoverySignal,
      batchCount, completionPotential]

set_option maxHeartbeats 1000000 in
theorem onFinishStep_orders (cfg : RunConfig) (fin : FinishInput) (s : RunState) :
    OrdersOk s (onFinishStep cfg fin s) := by
  simp only [onFinishStep, emitRunCompletionEvents, writeCommentary, writeProgress]
  split_ifs <;>
    (simp_all [OrdersOk, ordersOf_append, ordersOf, range'_two, range'_three,
      range'_one_off, range'_zero_off] <;> omega)

set_option maxHeartbeats 1000000 in
theorem applyOp_orders (cfg : RunConfig) (s : RunState) (op : RunOp) :
    OrdersOk s (applyOp cfg s op) := by
  cases op with
  | finishOp fin => exact onFinishStep_orders cfg fin s
  | stepFinishOp sf =>
    obtain ⟨hta, hef, hsig, louts⟩ := sf
    cases hsig <;>
      simp only [applyOp] <;>
      split_ifs <;>
        (simp_all [OrdersOk, writeCommentary, mergeRecoverySignal, ordersOf_append,
          ordersOf, range'_two, range'_three, range'_one_off, range'_zero_off] <;> omega)
  | finalizeFinishOp c m p =>
    simp only [applyOp, finalizeFinishStep, emitRunCompletionEvents,
      writeCommentary, writeProgress]
    split_ifs <;>
      (simp_all [OrdersOk, ordersOf_append, ordersOf, range'_two, range'_three,
        range'_one_off, range'_zero_off] <;> omega)
  | heartbeatTickOp =>
    simp only [applyOp]
    split_ifs <;>
      (simp_all [OrdersOk, writeCommentary, ordersOf, range'_one_off,
        range'_zero_off] <;> omega)
  | _ =>
    simp [applyOp, OrdersOk, writeCommentary, writeProgress, mergeRecoverySignal,
      ordersOf, range'_one_off, range'_zero_off]

set_option maxHeartbeats 1000000 in
theorem onFinishStep_attempts (cfg : RunConfig) (fin : FinishInput) (s : RunState) :
    AttemptsOk s (onFinishStep cfg fin s) := by
  simp only [onFinishStep, emitRunCompletionEvents, writeCommentary, writeProgress]
  split_ifs <;>
    (simp_all [AttemptsOk, MAX_RUN_CONTINUATION_ATTEMPTS] <;> omega)

set_option maxHeartbeats 1000000 in
theorem applyOp_attempts (cfg : RunConfig) (s : RunState) (op : RunOp) :
    AttemptsOk s (applyOp cfg s op) := by
  cases op with
  | finishOp fin => exact onFinishStep_attempts cfg fin s
  | stepFinishOp sf =>
    obtain ⟨hta, hef, hsig, louts⟩ := sf
    cases hsig <;>
      simp only [applyOp] <;>
      split_ifs <;>
        simp_all [AttemptsOk, writeCommentary, mergeRecoverySignal]
  | finalizeFinishOp c m p =>
    simp only [applyOp, finalizeFinishStep, emitRunCompletionEvents,
      writeCommentary, writeProgress]
    split_ifs <;> simp_all [AttemptsOk]
  | heartbeatTickOp =>
    simp only [applyOp]
    split_ifs <;> simp_all [AttemptsOk, writeCommentary]
  | _ =>
    simp [applyOp, AttemptsOk, writeCommentary, writeProgress, mergeRecoverySignal]

set_option maxHeartbeats 1000000 in
theorem onFinishStep_forced (cfg : RunConfig) (fin : FinishInput) (s : RunState) :
    ForcedOk s (onFinishStep cfg fin s) := by
  simp only [onFinishStep, emitRunCompletionEvents, writeCommentary, writeProgress]
  split_ifs <;>
    simp_all [ForcedOk, forcedPotential]

set_option maxHeartbeats 1000000 in
theorem applyOp_forced (cfg : RunConfig) (s : RunState) (op : RunOp) :
    ForcedOk s (applyOp cfg s op) := by
  cases op with
  | finishOp fin => exact onFinishStep_forced cfg fin s
  | stepFinishOp sf =>
    obtain ⟨hta, hef, hsig, louts⟩ := sf
    cases hsig <;>
      simp only [applyOp] <;>
      split_ifs <;>
        simp_all [ForcedOk, writeCommentary, mergeRecoverySignal, forcedPotential]
  | finalizeFinishOp c m p =>
    simp only [applyOp, finalizeFinishStep, emitRunCompletionEvents,
      writeCommentary, writeProgress]
    split_ifs <;> simp_all [ForcedOk, forcedPotential]
  | heartbeatTickOp =>
    simp only [applyOp]
    split_ifs <;> simp_all [ForcedOk, writeCommentary, forcedPotential]
  | _ =>
    simp [applyOp, ForcedOk, writeCommentary, writeProgress, mergeRecoverySignal,
      forcedPotential]

theorem forcedCount_cons (a : RunAction) (l : List RunAction) :
    forcedCount (a :: l) =
      (if a = RunAction.forcedRecoverySegment then 1 else 0) + forcedCount l := by
  cases a <;> simp [forcedCount] <;> omega

theorem runTrace_batch (cfg : RunConfig) :
    ∀ (ops : List RunOp) (s : RunState),
      batchCount (runTrace cfg s ops).events +
        completionPotential (runTrace cfg s ops).state ≤ completionPotential s := by
  intro ops
  induction ops with
  | nil => intro s; simp [runTrace, batchCount]
  | cons op rest ih =>
    intro s
    have hop := applyOp_batch cfg s op
    cases h : applyOp cfg s op with
    | error msg => simp [runTrace, h, batchCount]
    | ok v =>
      obtain ⟨s1, evs, act⟩ := v
      rw [h] at hop
      simp only [BatchOk] at hop
      have hrest := ih s1
      simp only [runTrace, h, batchCount_append]
      omega

theorem runTrace_orders (cfg : RunConfig) :
    ∀ (ops : List RunOp) (s : RunState),
      s.progressCounter ≤ (runTrace cfg s ops).state.progressCounter ∧
      ordersOf (runTrace cfg s ops).events =
        List.range' s.progressCounter
          ((runTrace cfg s ops).state.progressCounter - s.progressCounter) := by
  intro ops
  induction ops with
  | nil => intro s; simp [runTrace, ordersOf]
  | cons op rest ih =>
    intro s
    have hop := applyOp_orders cfg s op
    cases h : applyOp cfg s op with
    | error msg => simp [runTrace, h, ordersOf]
    | ok v =>
      obtain ⟨s1, evs, act⟩ := v
      rw [h] at hop
      simp only [OrdersOk] at hop
      obtain ⟨hle1, hevs⟩ := hop
      obtain ⟨hle2, hrest⟩ := ih s1
      constructor
      · simp only [runTrace, h]
        omega
      · have key := List.range'_append_1 s.progressCounter
          (s1.progressCounter - s.progressCounter)
          ((runTrace cfg s1 rest).state.progressCounter - s1.progressCounter)
        have h1 : s.progressCounter + (s1.progressCounter - s.progressCounter) =
            s1.progressCounter := by omega
        have h2 : (runTrace cfg s1 rest).state.progressCounter - s1.progressCounter +
            (s1.progressCounter - s.progressCounter) =
            (runTrace cfg s1 rest).state.progressCounter - s.progressCounter := by
          omega
        rw [h1, h2] at key
        simp only [runTrace, h, ordersOf_append, hevs, hrest]
        exact key

theorem runTrace_attempts (cfg : RunConfig) :
    ∀ (ops : List RunOp) (s : RunState),
      s.runContinuationAttempts ≤ MAX_RUN_CONTINUATION_ATTEMPTS →
        (runTrace cfg s ops).state.runContinuationAttempts ≤
          MAX_RUN_CONTINUATION_ATTEMPTS := by
  intro ops
  induction ops with
  | nil => intro s hs; simpa [runTrace] using hs
  | cons op rest ih =>
    intro s hs
    have hop := applyOp_attempts cfg s op
    cases h : applyOp cfg s op with
    | error msg => simpa [runTrace, h] using hs
    | ok v =>
      obtain ⟨s1, evs, act⟩ := v
      rw [h] at hop
      simp only [AttemptsOk] at hop
      have := ih s1 (hop hs)
      simpa [runTrace, h] using this

theorem runTrace_forced (cfg : RunConfig) :
    ∀ (ops : List RunOp) (s : RunState),
      forcedCount (runTrace cfg s ops).actions +
        forcedPotential (runTrace cfg s ops).state ≤ forcedPotential s := by
  intro ops
  induction ops with
  | nil => intro s; simp [runTrace, forcedCount]
  | cons op rest ih =>
    intro s
    have hop := applyOp_forced cfg s op
    cases h : applyOp cfg s op with
    | error msg => simp [runTrace, h, forcedCount]
    | ok v =>
      obtain ⟨s1, evs, act⟩ := v
      rw [h] at hop
      simp only [ForcedOk] at hop
      have hrest := ih s1
      simp only [runTrace, h, forcedCount_cons]
      omega

theorem emit_sets_guard (t m p : String) (s : RunState) :
    (emitRunCompletionEvents t m p s).1.completionEmitted = true := by
  unfold emitRunCompletionEvents
  split_ifs with h
  · exact h
  · simp [writeProgress]

theorem emit_noop_when_emitted (t m p : String) (s : RunState)
    (h : s.completionEmitted = true) :
    emitRunCompletionEvents t m p s = (s, []) := by
  simp [emitRunCompletionEvents, h]

/-- Claim C1: for every Run the completion-event batch is emitted exactly
once under any combination of the asynchronous callbacks (timeout, retry,
forced finalize, continuation): any op trace from the initial state emits at
most one batch, every call to emitRunCompletionEvents after the first returns
without writing any event, and the first call with the guard clear writes
exactly one batch. -/
theorem c1_completion_batch_emitted_once :
    (∀ (cfg : RunConfig) (ops : List RunOp),
      batchCount (runTrace cfg initRunState ops).events ≤ 1) ∧
    (∀ (s : RunState) (t1 m1 p1 t2 m2 p2 : String),
      (emitRunCompletionEvents t2 m2 p2 (emitRunCompletionEvents t1 m1 p1 s).1).2 = []) ∧
    (∀ (s : RunState) (t m p : String), s.completionEmitted = false →
      batchCount (emitRunCompletionEvents t m p s).2 = 1) := by
  refine ⟨?_, ?_, ?_⟩
  · intro cfg ops
    have h := runTrace_batch cfg ops initRunState
    have h1 : completionPotential initRunState = 1 := rfl
    omega
  · intro s t1 m1 p1 t2 m2 p2
    rw [emit_noop_when_emitted t2 m2 p2 _ (emit_sets_guard t1 m1 p1 s)]
  · intro s t m p h
    simp [emitRunCompletionEvents, writeProgress, h, batchCount]

theorem c1_witness :
    batchCount (runTrace { chatMode := some ChatMode.build, maxSegments := 2 }
      initRunState []).events ≤ 1 ∧
    (emitRunCompletionEvents "final b" "m" "p"
      (emitRunCompletionEvents "final a" "m" "p" initRunState).1).2 = [] ∧
    batchCount (emitRunCompletionEvents "final a" "m" "p" initRunState).2 = 1 :=
  ⟨c1_completion_batch_emitted_once.1 { chatMode := some ChatMode.build, maxSegments := 2 } [],
   c1_completion_batch_emitted_once.2.1 initRunState "final a" "m" "p" "final b" "m" "p",
   c1_completion_batch_emitted_once.2.2 initRunState "final a" "m" "p" rfl⟩

/-- Claim C3: within a single Run the order values of emitted
agent-commentary events are strictly increasing in emission order, with no
repetition, in every op trace from the initial state. -/
theorem c3_commentary_orders_strictly_increasing :
    ∀ (cfg : RunConfig) (ops : List RunOp),
      List.Pairwise (· < ·)
        (commentaryOrders (runTrace cfg initRunState ops).events) ∧
      (commentaryOrders (runTrace cfg initRunState ops).events).Nodup := by
  intro cfg ops
  obtain ⟨hle, hords⟩ := runTrace_orders cfg ops initRunState
  have hpair : List.Pairwise (· < ·)
      (ordersOf (runTrace cfg initRunState ops).events) := by
    rw [hords]
    exact List.pairwise_lt_range' _ _
  have hsub := commentaryOrders_sublist (runTrace cfg initRunState ops).events
  have hc := List.Pairwise.sublist hsub hpair
  exact ⟨hc, hc.imp (fun h => Nat.ne_of_lt h)⟩

/-- Claim C2: run-continuation attempts never exceed the configured ceiling
MAX_RUN_CONTINUATION_ATTEMPTS = 5, at most one forced-run-recovery segment is
ever issued in a Run, and when the analyzer still says shouldContinue with
the ceiling reached and the guard flag clear, onFinish issues the escalated
forced-recovery turn and sets forcedRunRecoveryAttempted. -/
theorem c2_continuation_ceiling_and_forced_recovery_once :
    (∀ (cfg : RunConfig) (ops : List RunOp),
      (runTrace cfg initRunState ops).state.runContinuationAttempts ≤
        MAX_RUN_CONTINUATION_ATTEMPTS) ∧
    (∀ (cfg : RunConfig) (ops : List RunOp),
      forcedCount (runTrace cfg initRunState ops).actions ≤ 1) ∧
    (∀ (cfg : RunConfig) (fin : FinishInput) (s : RunState),
      fin.shouldContinue = true →
      MAX_RUN_CONTINUATION_ATTEMPTS ≤ s.runContinuationAttempts →
      s.forcedRunRecoveryAttempted = false →
      cfg.chatMode.getD ChatMode.build = ChatMode.build →
      fin.finishReason ≠ FinishReason.toolCalls →
      s.forceFinalizeRequested = false →
      actionOf (onFinishStep cfg fin s) = some RunAction.forcedRecoverySegment ∧
      (stateOf (onFinishStep cfg fin s)).map RunState.forcedRunRecoveryAttempted =
        some true) := by
  refine ⟨?_, ?_, ?_⟩
  · intro cfg ops
    exact runTrace_attempts cfg ops initRunState (by decide)
  · intro cfg ops
    have h := runTrace_forced cfg ops initRunState
    have h1 : forcedPotential initRunState = 1 := rfl
    omega
  · intro cfg fin s h1 h2 h3 h4 h5 h6
    have hnl : ¬ s.runContinuationAttempts < MAX_RUN_CONTINUATION_ATTEMPTS := by
      omega
    simp [onFinishStep, actionOf, stateOf, writeCommentary, h1, h2, h3, h4, h5, h6, hnl]

theorem c2_witness :
    (runTrace { chatMode := some ChatMode.build, maxSegments := 2 }
      initRunState []).state.runContinuationAttempts ≤ MAX_RUN_CONTINUATION_ATTEMPTS ∧
    forcedCount (runTrace { chatMode := some ChatMode.build, maxSegments := 2 }
      initRunState []).actions ≤ 1 ∧
    (actionOf (onFinishStep { chatMode := some ChatMode.build, maxSegments := 2 }
      c2WitnessFinish c2WitnessState) = some RunAction.forcedRecoverySegment ∧
     (stateOf (onFinishStep { chatMode := some ChatMode.build, maxSegments := 2 }
      c2WitnessFinish c2WitnessState)).map RunState.forcedRunRecoveryAttempted =
        some true) :=
  ⟨c2_continuation_ceiling_and_forced_recovery_once.1 _ [],
   c2_continuation_ceiling_and_forced_recovery_once.2.1 _ [],
   c2_continuation_ceiling_and_forced_recovery_once.2.2 _ c2WitnessFinish
     c2WitnessState rfl (by decide) rfl rfl (by decide) rfl⟩

/-- The length branch of onFinish: when nothing forces finalize, the analyzer
does not request continuation, and the switch count is under the cap, it
pushes exactly the prior assistant text and the CONTINUE_PROMPT envelope and
starts a new segment. -/
theorem onFinishStep_length_branch (cfg : RunConfig) (fin : FinishInput)
    (s : RunState)
    (h1 : fin.finishReason = FinishReason.length)
    (h2 : fin.shouldContinue = false)
    (h3 : s.forceFinalizeRequested = false)
    (h4 : s.switches < cfg.maxSegments) :
    onFinishStep cfg fin s = Except.ok
      ({ s with messages := s.messages ++
          [{ role := Role.assistant, content := fin.content },
           { role := Role.user,
             content := "[Model: " ++ fin.model ++ "]\n\n[Provider: " ++ fin.provider
               ++ "]\n\n" ++ CONTINUE_PROMPT }] },
       [], RunAction.lengthSegment) := by
  have hno : ¬ cfg.maxSegments ≤ s.switches := by omega
  simp [onFinishStep, h1, h2, h3, hno]

theorem c4_trace_invariant :
    ∀ (n : Nat) (s : RunState), s.forceFinalizeRequested = false → s.switches = 0 →
      (runTrace c4Cfg s (List.replicate n (RunOp.finishOp c4LengthFinish))).aborted =
        none ∧
      (runTrace c4Cfg s (List.replicate n (RunOp.finishOp c4LengthFinish))).actions =
        List.replicate n RunAction.lengthSegment ∧
      (runTrace c4Cfg s
        (List.replicate n (RunOp.finishOp c4LengthFinish))).state.switches = 0 := by
  intro n
  induction n with
  | zero =>
    intro s h1 h2
    simpa [runTrace] using h2
  | succ k ih =>
    intro s h1 h2
    have h4 : s.switches < c4Cfg.maxSegments := by
      rw [h2]; decide
    have hstep := onFinishStep_length_branch c4Cfg c4LengthFinish s rfl rfl h1 h4
    have happly : applyOp c4Cfg s (RunOp.finishOp c4LengthFinish) =
        onFinishStep c4Cfg c4LengthFinish s := rfl
    obtain ⟨ha, hb, hc⟩ := ih ({ s with messages := s.messages ++
      [{ role := Role.assistant, content := c4LengthFinish.content },
       { role := Role.user,
         content := "[Model: " ++ c4LengthFinish.model ++ "]\n\n[Provider: "
           ++ c4LengthFinish.provider ++ "]\n\n" ++ CONTINUE_PROMPT }] })
      (by simpa using h1) (by simpa using h2)
    refine ⟨?_, ?_, ?_⟩ <;>
      simp [List.replicate_succ, runTrace, happly, hstep, ha, hb, hc]

/-- Claim C4, code behavior at the failing scenario: with the segment cap at
2, a Run whose backend segments keep finishing with reason length never
raises the segment-limit error, because no code path ever feeds the
SwitchableStream: its switch counter stays 0 for the whole Run and the guard
stream.switches ≥ MAX_RESPONSE_SEGMENTS can never fire, so continuation
segments are issued without bound instead of stopping at the cap. -/
theorem c4_segment_limit_never_reached :
    ∀ n : Nat,
      (runTrace c4Cfg initRunState
        (List.replicate n (RunOp.finishOp c4LengthFinish))).aborted = none ∧
      (runTrace c4Cfg initRunState
        (List.replicate n (RunOp.finishOp c4LengthFinish))).actions =
        List.replicate n RunAction.lengthSegment ∧
      (runTrace c4Cfg initRunState
        (List.replicate n (RunOp.finishOp c4LengthFinish))).state.switches = 0 :=
  fun n => c4_trace_invariant n initRunState rfl rfl

/-- Claim C8: whenever onFinish starts a new backend segment after a
length-truncated finish, it appends exactly two synthetic messages: the prior
assistant output, then the user continuation directive carrying the
model/provider envelope around CONTINUE_PROMPT. -/
theorem c8_length_continuation_appends_two_messages :
    ∀ (cfg : RunConfig) (fin : FinishInput) (s : RunState),
      actionOf (onFinishStep cfg fin s) = some RunAction.lengthSegment →
      (stateOf (onFinishStep cfg fin s)).map RunState.messages =
        some (s.messages ++
          [{ role := Role.assistant, content := fin.content },
           { role := Role.user,
             content := "[Model: " ++ fin.model ++ "]\n\n[Provider: " ++ fin.provider
               ++ "]\n\n" ++ CONTINUE_PROMPT }]) := by
  intro cfg fin s h
  unfold onFinishStep at h ⊢
  split_ifs at h ⊢ <;>
    simp_all [actionOf, stateOf, writeCommentary, writeProgress,
      emitRunCompletionEvents]

theorem c8_witness :
    actionOf (onFinishStep c8Cfg c8Fin initRunState) =
      some RunAction.lengthSegment ∧
    (stateOf (onFinishStep c8Cfg c8Fin initRunState)).map RunState.messages =
      some (initRunState.messages ++
        [{ role := Role.assistant, content := c8Fin.content },
         { role := Role.user,
           content := "[Model: " ++ c8Fin.model ++ "]\n\n[Provider: " ++ c8Fin.provider
             ++ "]\n\n" ++ CONTINUE_PROMPT }]) := by
  have hact : actionOf (onFinishStep c8Cfg c8Fin initRunState) =
      some RunAction.lengthSegment := by
    rw [onFinishStep_length_branch c8Cfg c8Fin initRunState rfl rfl rfl (by decide)]
    rfl
  exact ⟨hact, c8_length_continuation_appends_two_messages c8Cfg c8Fin initRunState hact⟩

/-- Claim C6: while the heartbeat is started, every window one interval long
inside the active period contains a heartbeat tick, so the client never
observes a commentary gap longer than the heartbeat interval; and each tick
performs one writeCommentary call, emitting exactly one commentary event
built from the last known phase. -/
theorem c6_heartbeat_bounds_commentary_gap :
    (∀ (interval startT stopT a : Nat),
      0 < interval → startT ≤ a → a + interval ≤ stopT →
      a ≤ heartbeatNextTick startT interval a ∧
      heartbeatNextTick startT interval a ≤ a + interval ∧
      heartbeatNextTick startT interval a ≤ stopT ∧
      heartbeatFiresAt startT interval (heartbeatNextTick startT interval a) = true) ∧
    (∀ (cfg : RunConfig) (s : RunState), s.heartbeatRunning = true →
      applyOp cfg s RunOp.heartbeatTickOp = Except.ok
        ({ s with
            firstCommentaryRecorded := true
            lastCommentaryPhase := s.lastCommentaryPhase
            progressCounter := s.progressCounter + 1 },
         [RunEvent.commentary s.progressCounter s.lastCommentaryPhase
            CStatus.inProgress "I am still working and will post another update shortly."],
         RunAction.noSegment)) := by
  constructor
  · intro interval startT stopT a hpos hsa hwin
    have hdm : interval * ((a - startT) / interval) + (a - startT) % interval =
        a - startT := Nat.div_add_mod _ _
    have hml : (a - startT) % interval < interval := Nat.mod_lt _ hpos
    have hmul : ((a - startT) / interval + 1) * interval =
        interval * ((a - startT) / interval) + interval := by ring
    have hmod : (heartbeatNextTick startT interval a - startT) % interval = 0 := by
      unfold heartbeatNextTick
      rw [Nat.add_sub_cancel_left, Nat.mul_mod_left]
    refine ⟨?_, ?_, ?_, ?_⟩
    · unfold heartbeatNextTick
      rw [hmul]
      omega
    · unfold heartbeatNextTick
      rw [hmul]
      omega
    · unfold heartbeatNextTick
      rw [hmul]
      omega
    · have hge : startT + interval ≤ heartbeatNextTick startT interval a := by
        unfold heartbeatNextTick
        rw [hmul]
        omega
      simp [heartbeatFiresAt, hpos, hge, hmod]
  · intro cfg s h
    simp [applyOp, h, writeCommentary]

theorem c6_witness :
    (3 ≤ heartbeatNextTick 0 10 3 ∧ heartbeatNextTick 0 10 3 ≤ 3 + 10 ∧
      heartbeatNextTick 0 10 3 ≤ 100 ∧
      heartbeatFiresAt 0 10 (heartbeatNextTick 0 10 3) = true) ∧
    applyOp { chatMode := some ChatMode.build, maxSegments := 2 } c6TickState
      RunOp.heartbeatTickOp = Except.ok
        ({ c6TickState with
            firstCommentaryRecorded := true
            lastCommentaryPhase := c6TickState.lastCommentaryPhase
            progressCounter := c6TickState.progressCounter + 1 },
         [RunEvent.commentary c6TickState.progressCounter c6TickState.lastCommentaryPhase
            CStatus.inProgress "I am still working and will post another update shortly."],
         RunAction.noSegment) :=
  ⟨c6_heartbeat_bounds_commentary_gap.1 10 0 100 3 (by decide) (by decide) (by decide),
   c6_heartbeat_bounds_commentary_gap.2 _ c6TickState rfl⟩

theorem fallback_ge_30000 (m : Option String) :
    30000 ≤ dynamicStreamTimeoutFallbackMs m := by
  unfold dynamicStreamTimeoutFallbackMs
  split_ifs <;> decide

/-- Claim C5: the effective stream timeout is always at least 30000 ms; a
configured finite value of at least 30000 is used as is; a configured value
under the floor, a non-finite configuration, or no configuration all fall
back to the model-derived default, which is 300000 ms exactly when the
selected model matches the long-reasoning pattern and 180000 ms otherwise. -/
theorem c5_stream_timeout_floor_and_fallback :
    (∀ (e : EnvNumber) (m : Option String), 30000 ≤ streamTimeoutMs e m) ∧
    (∀ (v : Int) (m : Option String), 30000 ≤ v →
      streamTimeoutMs (EnvNumber.value v) m = v) ∧
    (∀ (v : Int) (m : Option String), v < 30000 →
      streamTimeoutMs (EnvNumber.value v) m = dynamicStreamTimeoutFallbackMs m) ∧
    (∀ m : Option String,
      streamTimeoutMs EnvNumber.unset m = dynamicStreamTimeoutFallbackMs m ∧
      streamTimeoutMs EnvNumber.notFinite m = dynamicStreamTimeoutFallbackMs m) ∧
    (∀ m : Option String,
      dynamicStreamTimeoutFallbackMs m =
        if longThinkTest (m.getD "") then 300000 else 180000) := by
  refine ⟨?_, ?_, ?_, ?_, ?_⟩
  · intro e m
    have hf := fallback_ge_30000 m
    cases e with
    | unset => simpa [streamTimeoutMs, hf] using hf
    | notFinite => simpa [streamTimeoutMs] using hf
    | value v =>
      simp only [streamTimeoutMs]
      split_ifs with h
      · exact h
      · exact hf
  · intro v m h
    simp [streamTimeoutMs, h]
  · intro v m h
    have h2 : ¬ 30000 ≤ v := by omega
    simp [streamTimeoutMs, h2]
  · intro m
    have hf := fallback_ge_30000 m
    constructor
    · simp [streamTimeoutMs, hf]
    · simp [streamTimeoutMs]
  · intro m
    rfl

theorem c5_witness :
    30000 ≤ streamTimeoutMs (EnvNumber.value 45000) (some "gpt-4o-mini") ∧
    streamTimeoutMs (EnvNumber.value 45000) (some "gpt-4o-mini") = 45000 ∧
    streamTimeoutMs (EnvNumber.value 1000) (some "gpt-4o-mini") =
      dynamicStreamTimeoutFallbackMs (some "gpt-4o-mini") ∧
    streamTimeoutMs EnvNumber.unset (some "gpt-5-codex") =
      dynamicStreamTimeoutFallbackMs (some "gpt-5-codex") ∧
    dynamicStreamTimeoutFallbackMs (some "gpt-5-codex") = 300000 ∧
    dynamicStreamTimeoutFallbackMs (some "gpt-4o-mini") = 180000 :=
  ⟨c5_stream_timeout_floor_and_fallback.1 (EnvNumber.value 45000) (some "gpt-4o-mini"),
   c5_stream_timeout_floor_and_fallback.2.1 45000 (some "gpt-4o-mini") (by decide),
   c5_stream_timeout_floor_and_fallback.2.2.1 1000 (some "gpt-4o-mini") (by decide),
   (c5_stream_timeout_floor_and_fallback.2.2.2.1 (some "gpt-5-codex")).1,
   by decide, by decide⟩

/-- Claim C7: a pre-stream credential failure (message containing API key)
yields HTTP 401 with isRetryable false; every other pre-stream failure is
returned with the errors own statusCode when set and non-zero, 500 otherwise,
and isRetryable defaults to true unless the error explicitly sets false. -/
theorem c7_pre_stream_error_responses :
    (∀ e : JsError, strIncludes e.message "API key" = true →
      chatActionCatch e =
        { status := 401, message := "Invalid or missing API key", statusCode := 401,
          isRetryable := false, statusText := "Unauthorized" }) ∧
    (∀ (e : JsError) (v : Int), strIncludes e.message "API key" = false →
      e.statusCode = some v → v ≠ 0 →
      (chatActionCatch e).status = v ∧ (chatActionCatch e).statusCode = v) ∧
    (∀ e : JsError, strIncludes e.message "API key" = false →
      (e.statusCode = none ∨ e.statusCode = some 0) →
      (chatActionCatch e).status = 500 ∧ (chatActionCatch e).statusCode = 500) ∧
    (∀ e : JsError, strIncludes e.message "API key" = false →
      ((chatActionCatch e).isRetryable = false ↔ e.isRetryable = some false)) := by
  refine ⟨?_, ?_, ?_, ?_⟩
  · intro e h
    simp [chatActionCatch, h]
  · intro e v h hv hnz
    simp [chatActionCatch, h, hv, hnz]
  · intro e h hd
    cases hd with
    | inl h0 => simp [chatActionCatch, h, h0]
    | inr h0 => simp [chatActionCatch, h, h0]
  · intro e h
    cases hr : e.isRetryable with
    | none => simp [chatActionCatch, h, hr]
    | some b => cases b <;> simp [chatActionCatch, h, hr]

theorem c7_witness :
    chatActionCatch c7CredError =
      { status := 401, message := "Invalid or missing API key", statusCode := 401,
        isRetryable := false, statusText := "Unauthorized" } ∧
    ((chatActionCatch c7OtherError).status = 502 ∧
     (chatActionCatch c7OtherError).statusCode = 502) ∧
    ((chatActionCatch c7OtherError).isRetryable = false ↔
      c7OtherError.isRetryable = some false) :=
  ⟨c7_pre_stream_error_responses.1 c7CredError (by decide),
   c7_pre_stream_error_responses.2.1 c7OtherError 502 (by decide) rfl (by decide),
   c7_pre_stream_error_responses.2.2.2 c7OtherError (by decide)⟩

theorem runAux_all_ok (exec : InteractiveStep → ExecOutcome) :
    ∀ (steps : List InteractiveStep) (i : Nat),
      (∀ st ∈ steps, stepSucceeds exec st = true) →
      (runAux exec i steps).2 =
        { status := StepRunStatus.complete, failedStepIndex := none,
          exitCode := none, error := none } ∧
      (runAux exec i steps).1.getLast? =
        some (StepEvent.completeEvent (i + steps.length)) ∧
      startIndices (runAux exec i steps).1 = List.range' i steps.length := by
  intro steps
  induction steps with
  | nil =>
    intro i _
    simp [runAux, startIndices]
  | cons st rest ih =>
    intro i h
    have hst : stepSucceeds exec st = true := h st (by simp)
    have hrest : ∀ m ∈ rest, stepSucceeds exec m = true := fun m hm =>
      h m (by simp [hm])
    cases hex : exec st with
    | thrown msg => simp [stepSucceeds, hex] at hst
    | success r =>
      have hz : r.exitCode = 0 := by
        simpa [stepSucceeds, hex] using hst
      obtain ⟨h1, h2, h3⟩ := ih (i + 1) hrest
      refine ⟨?_, ?_, ?_⟩
      · simpa [runAux, hex, hz] using h1
      · simp only [runAux, hex, hz, if_pos]
        rw [List.getLast?_cons_cons]
        cases ht : (runAux exec (i + 1) rest).1 with
        | nil => rw [ht] at h2; simp at h2
        | cons e es =>
          rw [ht] at h2
          rw [List.getLast?_cons_cons, h2]
          have harith : i + 1 + rest.length = i + (st :: rest).length := by
            simp only [List.length_cons]
            omega
          rw [harith]
      · simp only [runAux, hex, hz, if_pos]
        simp [startIndices, h3, List.range'_succ]

theorem runAux_first_fail (exec : InteractiveStep → ExecOutcome) :
    ∀ (pre : List InteractiveStep) (st : InteractiveStep)
      (post : List InteractiveStep) (i : Nat),
      (∀ m ∈ pre, stepSucceeds exec m = true) → stepSucceeds exec st = false →
      (runAux exec i (pre ++ st :: post)).2.status = StepRunStatus.error ∧
      (runAux exec i (pre ++ st :: post)).2.failedStepIndex = some (i + pre.length) ∧
      ((runAux exec i (pre ++ st :: post)).1.getLast?).map isErrorEvent = some true ∧
      startIndices (runAux exec i (pre ++ st :: post)).1 =
        List.range' i (pre.length + 1) := by
  intro pre
  induction pre with
  | nil =>
    intro st post i _ hbad
    cases hex : exec st with
    | thrown msg =>
      simp [runAux, hex, startIndices, isErrorEvent]
    | success r =>
      have hz : r.exitCode ≠ 0 := by
        intro h0
        rw [stepSucceeds, hex] at hbad
        simp [h0] at hbad
      simp [runAux, hex, hz, startIndices, isErrorEvent]
  | cons p pre ih =>
    intro st post i h hbad
    have hp : stepSucceeds exec p = true := h p (by simp)
    have hpre : ∀ m ∈ pre, stepSucceeds exec m = true := fun m hm =>
      h m (by simp [hm])
    cases hex : exec p with
    | thrown msg => simp [stepSucceeds, hex] at hp
    | success r =>
      have hz : r.exitCode = 0 := by
        simpa [stepSucceeds, hex] using hp
      obtain ⟨h1, h2, h3, h4⟩ := ih st post (i + 1) hpre hbad
      refine ⟨?_, ?_, ?_, ?_⟩
      · simpa [runAux, hex, hz] using h1
      · have : i + 1 + pre.length = i + (pre.length + 1) := by omega
        simp only [runAux, hex, hz, if_pos, List.cons_append]
        simpa [this] using h2
      · simp only [runAux, hex, hz, if_pos, List.cons_append]
        rw [List.getLast?_cons_cons]
        cases ht : (runAux exec (i + 1) (pre ++ st :: post)).1 with
        | nil => rw [ht] at h3; simp at h3
        | cons e es =>
          rw [ht] at h3
          rw [List.getLast?_cons_cons]
          exact h3
      · simp only [runAux, hex, hz, if_pos, List.cons_append]
        simp [startIndices, h4, List.range'_succ]

/-- Claim C9: InteractiveStepRunner.run executes steps strictly in order and
stops at the first step whose executor reports a non-zero exit code or
throws, returning an error result indexed at that step with the error event
last and with no later step started; and when every step reports exit code
zero it returns a complete result whose last event is the complete event. -/
theorem c9_step_runner_stops_at_first_failure :
    (∀ (exec : InteractiveStep → ExecOutcome) (pre : List InteractiveStep)
        (st : InteractiveStep) (post : List InteractiveStep),
      (∀ m ∈ pre, stepSucceeds exec m = true) → stepSucceeds exec st = false →
      (runSteps exec (pre ++ st :: post)).2.status = StepRunStatus.error ∧
      (runSteps exec (pre ++ st :: post)).2.failedStepIndex = some pre.length ∧
      ((runSteps exec (pre ++ st :: post)).1.getLast?).map isErrorEvent =
        some true ∧
      startIndices (runSteps exec (pre ++ st :: post)).1 =
        List.range (pre.length + 1)) ∧
    (∀ (exec : InteractiveStep → ExecOutcome) (steps : List InteractiveStep),
      (∀ m ∈ steps, stepSucceeds exec m = true) →
      (runSteps exec steps).2.status = StepRunStatus.complete ∧
      (runSteps exec steps).1.getLast? =
        some (StepEvent.completeEvent steps.length)) := by
  constructor
  · intro exec pre st post hpre hbad
    obtain ⟨h1, h2, h3, h4⟩ := runAux_first_fail exec pre st post 0 hpre hbad
    exact ⟨h1, by simpa using h2, h3, by rw [List.range_eq_range']; simpa using h4⟩
  · intro exec steps h
    obtain ⟨h1, h2, h3⟩ := runAux_all_ok exec steps 0 h
    exact ⟨by simp [runSteps, h1], by simpa [runSteps] using h2⟩

theorem c9_witness :
    ((runSteps c9Exec ([c9Good] ++ c9Bad :: [c9Tail])).2.status = StepRunStatus.error ∧
     (runSteps c9Exec ([c9Good] ++ c9Bad :: [c9Tail])).2.failedStepIndex = some 1 ∧
     ((runSteps c9Exec ([c9Good] ++ c9Bad :: [c9Tail])).1.getLast?).map isErrorEvent =
       some true ∧
     startIndices (runSteps c9Exec ([c9Good] ++ c9Bad :: [c9Tail])).1 =
       List.range 2) ∧
    ((runSteps c9Exec [c9Good, c9Good]).2.status = StepRunStatus.complete ∧
     (runSteps c9Exec [c9Good, c9Good]).1.getLast? =
       some (StepEvent.completeEvent 2)) :=
  ⟨c9_step_runner_stops_at_first_failure.1 c9Exec [c9Good] c9Bad [c9Tail]
     (by decide) (by decide),
   c9_step_runner_stops_at_first_failure.2 c9Exec [c9Good, c9Good] (by decide)⟩

theorem containsSub_iff (hay needle : List Char) :
    containsSub hay needle = true ↔ needle <:+: hay := by
  unfold containsSub
  rw [List.any_eq_true]
  constructor
  · rintro ⟨i, _, hp⟩
    rw [List.isPrefixOf_iff_prefix] at hp
    obtain ⟨t, ht⟩ := hp
    refine ⟨hay.take i, t, ?_⟩
    rw [List.append_assoc, ht, List.take_append_drop]
  · rintro ⟨s1, t, hst⟩
    refine ⟨s1.length, ?_, ?_⟩
    · rw [List.mem_range, ← hst]
      simp
      omega
    · rw [List.isPrefixOf_iff_prefix, ← hst, List.append_assoc, List.drop_left]
      exact ⟨t, rfl⟩

theorem dropWhile_append_of_all {p : Char → Bool} :
    ∀ (xs ys : List Char), (∀ c ∈ xs, p c = true) →
      List.dropWhile p (xs ++ ys) = List.dropWhile p ys := by
  intro xs
  induction xs with
  | nil => intro ys _; simp
  | cons x xt ih =>
    intro ys h
    have hx : p x = true := h x (by simp)
    simp only [List.cons_append, List.dropWhile_cons, hx, if_pos]
    exact ih ys fun c hc => h c (by simp [hc])

theorem rotateRequiredAt_iff (l : List Char) :
    rotateRequiredAt l = true ↔
      ∃ seps post, l = "rotate".data ++ seps ++ "required".data ++ post ∧
        ∀ c ∈ seps, sepChar c = true := by
  unfold rotateRequiredAt
  rw [Bool.and_eq_true, List.isPrefixOf_iff_prefix, List.isPrefixOf_iff_prefix]
  constructor
  · rintro ⟨⟨rest, hrest⟩, ⟨post, hpost⟩⟩
    have h6 : l.drop 6 = rest := by
      rw [← hrest]
      exact List.drop_left' rfl
    rw [h6] at hpost
    refine ⟨rest.takeWhile sepChar, post, ?_, ?_⟩
    · rw [← hrest, List.append_assoc, List.append_assoc, hpost,
        List.takeWhile_append_dropWhile]
    · intro c hc
      exact List.mem_takeWhile_imp hc
  · rintro ⟨seps, post, heq, hsep⟩
    constructor
    · refine ⟨seps ++ "required".data ++ post, ?_⟩
      rw [heq]
      simp
    · refine ⟨post, ?_⟩
      have hd : l.drop 6 = seps ++ ("required".data ++ post) := by
        rw [heq]
        have : "rotate".data ++ seps ++ "required".data ++ post =
            "rotate".data ++ (seps ++ ("required".data ++ post)) := by simp
        rw [this]
        exact List.drop_left' rfl
      rw [hd, dropWhile_append_of_all seps _ hsep]
      have hreq : "required".data = 'r' :: "equired".data := rfl
      rw [hreq, List.cons_append, List.dropWhile_cons,
        show sepChar 'r' = false from by decide]
      simp

theorem rotateRequiredTest_iff : ∀ l : List Char,
    rotateRequiredTest l = true ↔
      ∃ pre seps post,
        l = pre ++ "rotate".data ++ seps ++ "required".data ++ post ∧
        ∀ c ∈ seps, sepChar c = true := by
  intro l
  induction l with
  | nil =>
    constructor
    · intro h
      simp [rotateRequiredTest, rotateRequiredAt] at h
    · rintro ⟨pre, seps, post, h, _⟩
      exact absurd h (by simp)
  | cons c t ih =>
    rw [rotateRequiredTest, Bool.or_eq_true]
    constructor
    · intro h
      cases h with
      | inl hat =>
        obtain ⟨seps, post, heq, hsep⟩ := (rotateRequiredAt_iff _).1 hat
        exact ⟨[], seps, post, by simpa using heq, hsep⟩
      | inr htail =>
        obtain ⟨pre, seps, post, heq, hsep⟩ := ih.1 htail
        exact ⟨c :: pre, seps, post, by simp [heq], hsep⟩
    · rintro ⟨pre, seps, post, heq, hsep⟩
      cases pre with
      | nil =>
        left
        exact (rotateRequiredAt_iff _).2 ⟨seps, post, by simpa using heq, hsep⟩
      | cons p ps =>
        right
        simp only [List.cons_append] at heq
        injection heq with h1 h2
        exact ih.2 ⟨ps, seps, post, h2, hsep⟩

theorem isBracketPlaceholder_iff (raw : List Char) :
    isBracketPlaceholder raw = true ↔
      ∃ mid, jsTrim raw = '<' :: (mid ++ ['>']) ∧ mid ≠ [] ∧ '>' ∉ mid := by
  unfold isBracketPlaceholder
  cases htr : jsTrim raw with
  | nil =>
    simp
  | cons c rest =>
    constructor
    · intro h
      simp only [Bool.and_eq_true, beq_iff_eq, Bool.not_eq_true',
        List.all_eq_true, bne_iff_ne] at h
      obtain ⟨⟨⟨hc, hne⟩, hl⟩, hall⟩ := h
      have hrest : rest ≠ [] := by
        intro h0
        rw [h0] at hl
        simp at hl
      have hcat := List.dropLast_concat_getLast hrest
      have hlast : rest.getLast hrest = '>' := by
        have h2 := List.getLast?_eq_getLast rest hrest
        rw [hl] at h2
        exact (Option.some.inj h2).symm
      refine ⟨rest.dropLast, ?_, ?_, ?_⟩
      · rw [hc]
        rw [hlast] at hcat
        rw [hcat]
      · intro h0
        rw [h0] at hne
        simp at hne
      · intro hmem
        exact (hall _ hmem) rfl
    · rintro ⟨mid, heq, hmid, hnot⟩
      injection heq with h1 h2
      simp only [Bool.and_eq_true, beq_iff_eq, Bool.not_eq_true',
        List.all_eq_true, bne_iff_ne]
      refine ⟨⟨⟨h1, ?_⟩, ?_⟩, ?_⟩
      · rw [h2, List.dropLast_concat]
        cases mid with
        | nil => exact absurd rfl hmid
        | cons m ms => rfl
      · rw [h2, List.getLast?_concat]
      · intro x hx
        rw [h2, List.dropLast_concat] at hx
        exact fun hxe => hnot (hxe ▸ hx)

theorem httpTest_iff (l : List Char) :
    httpTest l = true ↔ HttpSpec l := by
  unfold httpTest HttpSpec
  rw [Bool.or_eq_true, List.isPrefixOf_iff_prefix, List.isPrefixOf_iff_prefix]

theorem isPlaceholderCredential_iff (raw : List Char) :
    isPlaceholderCredential raw = true ↔ PlaceholderSpec raw := by
  unfold isPlaceholderCredential PlaceholderSpec
  simp only [Bool.or_eq_true, List.isEmpty_iff, List.any_eq_true,
    rotateRequiredTest_iff, isBracketPlaceholder_iff, containsSub_iff, or_assoc]

/-- Claim C10: normalizeHttpUrl returns the trimmed string exactly when the
input is a string whose trimmed value is non-empty, is not a placeholder
credential (empty, rotate-required, bracket-wrapped, or containing one of
the placeholder snippets), and begins with the http or https scheme
case-insensitively; in every other case, including non-string inputs, it
returns undefined. -/
theorem c10_normalizeHttpUrl_spec :
    normalizeHttpUrl JsValue.jnonstring = none ∧
    (∀ s : String,
      (jsTrim s.data ≠ [] ∧ ¬ PlaceholderSpec (jsTrim s.data) ∧
          HttpSpec (jsTrim s.data) →
        normalizeHttpUrl (JsValue.jstr s) = some (String.mk (jsTrim s.data))) ∧
      (¬ (jsTrim s.data ≠ [] ∧ ¬ PlaceholderSpec (jsTrim s.data) ∧
          HttpSpec (jsTrim s.data)) →
        normalizeHttpUrl (JsValue.jstr s) = none)) := by
  constructor
  · rfl
  · intro s
    constructor
    · rintro ⟨hne, hnp, hh⟩
      have h1 : ¬ (jsTrim s.data).length = 0 := by
        simpa [List.length_eq_zero] using hne
      have h2 : isPlaceholderCredential (jsTrim s.data) = false := by
        cases hb : isPlaceholderCredential (jsTrim s.data) with
        | false => rfl
        | true => exact absurd ((isPlaceholderCredential_iff _).1 hb) hnp
      have h3 : httpTest (jsTrim s.data) = true := (httpTest_iff _).2 hh
      simp [normalizeHttpUrl, h1, h2, h3]
    · intro hnot
      by_cases h1 : (jsTrim s.data).length = 0
      · simp [normalizeHttpUrl, h1]
      · cases hb : isPlaceholderCredential (jsTrim s.data) with
        | true => simp [normalizeHttpUrl, h1, hb]
        | false =>
          cases hh : httpTest (jsTrim s.data) with
          | false => simp [normalizeHttpUrl, h1, hb, hh]
          | true =>
            refine absurd ⟨?_, ?_, ?_⟩ hnot
            · simpa [List.length_eq_zero] using h1
            · intro hp
              exact absurd ((isPlaceholderCredential_iff _).2 hp) (by simp [hb])
            · exact (httpTest_iff _).1 hh

theorem c10_witness :
    normalizeHttpUrl (JsValue.jstr "  HTTPS://api.example.com  ") =
      some (String.mk (jsTrim "  HTTPS://api.example.com  ".data)) ∧
    normalizeHttpUrl (JsValue.jstr "your_api_key_here") = none ∧
    normalizeHttpUrl JsValue.jnonstring = none :=
  ⟨((c10_normalizeHttpUrl_spec.2 "  HTTPS://api.example.com  ").1
      ⟨by decide,
       fun hp => absurd ((isPlaceholderCredential_iff _).2 hp) (by decide),
       (httpTest_iff _).1 (by decide)⟩),
   ((c10_normalizeHttpUrl_spec.2 "your_api_key_here").2
      (fun h => h.2.1 ((isPlaceholderCredential_iff _).1 (by decide)))),
   c10_normalizeHttpUrl_spec.1⟩

end BoltGives
